import Mathlib

/-!
Shallow embedding of the trivia-api backend (src/backend/flaskr/__init__.py).

The database is modelled as explicit lists of rows.  Each Flask request
handler becomes a pure function from the database state (and the decoded
request data) to an `Except Nat payload` value: `Except.ok p` models the
`jsonify({'success': True, ...})` response and `Except.error c` models
`abort(c)` routed through the registered error handlers (`{'success': False,
'error': c, ...}`).  Write handlers additionally return the new database
state.  Places where the code wraps a storage call in `try/except` take an
extra `Bool` flag modelling whether the storage operation raises.
-/

namespace Trivia

/-- Modelled from the spec (models.py is not under src/): a Question row has
exactly the five fields {id, question, answer, category, difficulty}; the id
is auto-assigned identity, category is an integer reference to Category.id. -/
structure Question where
  id : Nat
  question : String
  answer : String
  category : Int
  difficulty : Int
deriving DecidableEq

/-- Modelled from the spec (models.py is not under src/): a Category row has
fields {id, type}. -/
structure Category where
  id : Nat
  type : String
deriving DecidableEq

/-- Modelled from the spec: `Question.format()` exposes exactly the five
stored fields, hence it is the identity on our record. -/
def Question.format (q : Question) : Question := q

/-- QUESTIONS_PER_PAGE = 10. -/
def QUESTIONS_PER_PAGE : Int := 10

/-- Effective index of a Python slice bound `i` on a list of length `n`:
a negative bound counts from the end (clamped at 0), a non-negative bound is
clamped at `n`. -/
def sliceIndex (n : Nat) (i : Int) : Nat :=
  if i < 0 then ((n : Int) + i).toNat else min i.toNat n

/-- Python list slicing `l[a:b]` for integer bounds `a`, `b`. -/
def pySlice (l : List α) (a b : Int) : List α :=
  (l.drop (sliceIndex l.length a)).take (sliceIndex l.length b - sliceIndex l.length a)

/-- `paginate_questions(request, selections)`: `page` is the decoded
`request.args.get('page', 1, type=int)`; the function returns
`selections[start:end]` with `start = (page-1)*QUESTIONS_PER_PAGE` and
`end = start + QUESTIONS_PER_PAGE`. -/
def paginate_questions (page : Int) (selections : List Question) : List Question :=
  pySlice selections ((page - 1) * QUESTIONS_PER_PAGE)
    ((page - 1) * QUESTIONS_PER_PAGE + QUESTIONS_PER_PAGE)

/-- Insert a question into a list sorted by ascending id. -/
def insertById (q : Question) : List Question → List Question
  | [] => [q]
  | r :: rs => if q.id ≤ r.id then q :: r :: rs else r :: insertById q rs

/-- `Question.query.order_by(Question.id).all()` on database `l`. -/
def sortById (l : List Question) : List Question := l.foldr insertById []

/-- Insert a category into a list sorted by ascending id. -/
def insertCatById (c : Category) : List Category → List Category
  | [] => [c]
  | d :: ds => if c.id ≤ d.id then c :: d :: ds else d :: insertCatById c ds

/-- `Category.query.order_by(Category.id).all()` on database `l`. -/
def sortCatsById (l : List Category) : List Category := l.foldr insertCatById []

/-- The ordered read of all categories as the handler code sees it: SQLAlchemy
`.all()` always yields a list (possibly empty), never `None`, hence `some`. -/
def categoriesRead (cats : List Category) : Option (List Category) :=
  some (sortCatsById cats)

/-- The dict comprehension `{category.id: category.type for category in cs}`
as an association list (category ids are distinct primary keys). -/
def formatCategories (cs : List Category) : List (Nat × String) :=
  cs.map (fun c => (c.id, c.type))

/-- GET /categories.  `categories` is the result of the ordered read as the
dynamically-typed code sees it; the code aborts 404 only when it `is None`. -/
def get_categories (categories : Option (List Category)) :
    Except Nat (List (Nat × String)) :=
  match categories with
  | none => .error 404
  | some cs => .ok (formatCategories cs)

/-- Success payload of GET /questions. -/
structure QuestionsResponse where
  questions : List Question
  total_questions : Nat
  categories : List (Nat × String)
deriving DecidableEq

/-- GET /questions?page=N.  `categories` is the ordered category read as the
code sees it (checked only against `None`); the question read is ordered by
id and paginated, and an empty page aborts 404. -/
def get_questions (db : List Question) (categories : Option (List Category))
    (page : Int) : Except Nat QuestionsResponse :=
  let selections := sortById db
  let questions := paginate_questions page selections
  match categories with
  | none => .error 404
  | some cs =>
    if questions.length = 0 then .error 404
    else .ok ⟨questions.map Question.format, selections.length, formatCategories cs⟩

/-- DELETE /questions/{question_id}.  `Question.query.get` finds the row by
primary key; if absent abort 404; otherwise `question.delete()` removes that
row, with the `try/except` mapping a storage fault (`deleteOk = false`) to
422.  The success body echoes the deleted id. -/
def delete_question (db : List Question) (question_id : Nat) (deleteOk : Bool) :
    List Question × Except Nat Nat :=
  match db.find? (fun q => q.id == question_id) with
  | none => (db, .error 404)
  | some _ =>
    if deleteOk then
      (db.eraseP (fun q => q.id == question_id), .ok question_id)
    else (db, .error 422)

/-- Decoded JSON body of POST /questions: each `body.get(k)` yields `none`
when the key is absent or null, and `some v` otherwise (so a present-but-falsy
value such as `""` or `0` is `some`). -/
structure PostBody where
  question : Option String
  answer : Option String
  difficulty : Option Int
  category : Option Int
deriving DecidableEq

/-- The handler's 400 guard: `question is None or answer is None or
difficulty is None or category is None`. -/
def missingField (b : PostBody) : Bool :=
  b.question.isNone || b.answer.isNone || b.difficulty.isNone || b.category.isNone

/-- Modelled from the spec (models.py is not under src/): the storage layer
auto-assigns a fresh identity id to an inserted row. -/
def freshId (db : List Question) : Nat :=
  db.foldr (fun q m => max q.id m) 0 + 1

/-- POST /questions.  Abort 400 if any of the four fields is `None`;
otherwise insert the new row, with the `try/except` mapping a storage fault
(`insertOk = false`) to 422. -/
def post_question (db : List Question) (b : PostBody) (insertOk : Bool) :
    List Question × Except Nat String :=
  match b.question, b.answer, b.difficulty, b.category with
  | some q, some a, some d, some c =>
    if insertOk then
      (db ++ [⟨freshId db, q, a, c, d⟩], .ok "Question successfully created!")
    else (db, .error 422)
  | _, _, _, _ => (db, .error 400)

/-- Leading-segment test: `isSubAt needle hay` holds when `needle` occurs at
the head of `hay`. -/
def isSubAt : List Char → List Char → Bool
  | [], _ => true
  | _ :: _, [] => false
  | c :: cs, d :: ds => c == d && isSubAt cs ds

/-- Contiguous-occurrence test: `hasSub needle hay` holds when `needle`
occurs contiguously anywhere inside `hay`. -/
def hasSub (needle : List Char) : List Char → Bool
  | [] => needle.isEmpty
  | d :: ds => isSubAt needle (d :: ds) || hasSub needle ds

/-- One SQL LIKE step over suffixes: `%` consumes any prefix of the string,
so a pattern continuation `f` succeeds when it succeeds on some suffix. -/
def anySuffix (f : List Char → Bool) : List Char → Bool
  | [] => f []
  | c :: s => f (c :: s) || anySuffix f s

/-- SQL LIKE pattern matching over characters: `%` matches any sequence,
`_` matches exactly one character, every other pattern character matches
itself literally (the query attaches no ESCAPE clause, and no
dialect-specific escape processing is modelled). -/
def likeMatch : List Char → List Char → Bool
  | [], s => s.isEmpty
  | p :: ps, s =>
    if p = '%' then anySuffix (likeMatch ps) s
    else
      match s with
      | [] => false
      | c :: s2 => (p == '_' || p == c) && likeMatch ps s2

/-- `Question.question.ilike('%' + search_term + '%')`: the raw term is
concatenated unescaped into the pattern, so `%` and `_` inside the term act
as SQL wildcards; ILIKE's case-insensitivity is modelled by lowering both
the pattern and the text. -/
def ilikeFilter (hay term : String) : Bool :=
  likeMatch (('%' :: term.toList ++ ['%']).map Char.toLower)
    (hay.toList.map Char.toLower)

/-- Modelled from the spec's words, for comparison with the source-embedded
`ilikeFilter`: a "case-insensitive substring match against the question
text". -/
def containsCI (hay term : String) : Bool :=
  hasSub (term.toList.map Char.toLower) (hay.toList.map Char.toLower)

/-- Success payload of POST /questions/search. -/
structure SearchResponse where
  questions : List Question
  total_questions : Nat
deriving DecidableEq

/-- POST /questions/search.  `searchTerm` is `body.get('searchTerm')`; the
code runs the ilike pattern query only `if search_term:` is truthy, i.e.
neither absent nor the empty string, and otherwise aborts 400. -/
def search_question (db : List Question) (searchTerm : Option String)
    (page : Int) : Except Nat SearchResponse :=
  match searchTerm with
  | none => .error 400
  | some t =>
    if t = "" then .error 400
    else
      let selections := db.filter (fun q => ilikeFilter q.question t)
      let questions := paginate_questions page selections
      .ok ⟨questions.map Question.format, selections.length⟩

/-- Success payload of GET /categories/{id}/questions. -/
structure CategoryQuestionsResponse where
  questions : List Question
  total_questions : Nat
  current_category : Nat
deriving DecidableEq

/-- GET /categories/{catetory_id}/questions.  `Category.query.get` looks the
category up by primary key, aborting 404 when absent; otherwise the questions
with that category are read, paginated and returned with the unpaginated
count and the id as current_category (no emptiness check). -/
def select_categoty (cats : List Category) (db : List Question)
    (catetory_id : Nat) (page : Int) : Except Nat CategoryQuestionsResponse :=
  match cats.find? (fun c => c.id == catetory_id) with
  | none => .error 404
  | some _ =>
    let selections := db.filter (fun q => decide (q.category = (catetory_id : Int)))
    let questions := paginate_questions page selections
    .ok ⟨questions.map Question.format, selections.length, catetory_id⟩

/-- The decoded `body.get('previous_questions')` value: either a proper list
of ids, or some non-list value (e.g. a number), on which SQLAlchemy's
`notin_` raises. -/
inductive PrevVal where
  | list (ids : List Nat)
  | nonList
deriving DecidableEq

/-- The decoded `quiz_category` object: a dict whose `.get('id')` /
`.get('type')` yield `none` when the key is absent or null. -/
structure QuizCategory where
  id : Option Int
  type : Option String
deriving DecidableEq

/-- Decoded JSON body of POST /quizzes. -/
structure QuizBody where
  previous_questions : Option PrevVal
  quiz_category : Option QuizCategory
deriving DecidableEq

/-- Success payload of POST /quizzes. -/
structure QuizResponse where
  question : Question
deriving DecidableEq

/-- POST /quizzes, the tail after the guarded block: an empty pool aborts
404; otherwise the question at index `random_number(0, len(questions))` is
returned, modelled by `pick` applied to the pool size (an out-of-range index
would be an uncaught IndexError, modelled as an unhandled 500). -/
def chooseFrom (questions : List Question) (pick : Nat → Nat) :
    Except Nat QuizResponse :=
  if questions.length = 0 then .error 404
  else
    match questions[pick questions.length]? with
    | some q => .ok ⟨q.format⟩
    | none => .error 500

/-- POST /quizzes, the guarded part: everything up to and including the
filtered query runs inside `try/except: abort(422)`: a missing
`quiz_category` raises on `.get('id')`; a `None` or non-list
`previous_questions` raises inside `notin_`; a storage fault during the
query (`storageFails = true`) raises.  A present `quiz_category` with a
missing `id` does NOT raise: `None == 0` is false, and
`filter_by(category=None)` is the SQL filter `category IS NULL`, which
matches no row of the integer-typed column.  The remainder of the handler
after the guarded block is `chooseFrom`. -/
def next_question (db : List Question) (body : QuizBody) (storageFails : Bool)
    (pick : Nat → Nat) : Except Nat QuizResponse :=
  match body.quiz_category with
  | none => .error 422
  | some qc =>
    let selections :=
      if qc.id = some 0 then db
      else db.filter (fun q => decide (some q.category = qc.id))
    match body.previous_questions with
    | none => .error 422
    | some .nonList => .error 422
    | some (.list prev) =>
      if storageFails then .error 422
      else chooseFrom (selections.filter (fun q => decide (q.id ∉ prev))) pick

/-- A database of `n` questions with ids 1..n (used as concrete test data). -/
def mkDb (n : Nat) : List Question :=
  (List.range n).map (fun i => ⟨i + 1, "q", "a", 1, 1⟩)

/-- Page 0 yields the empty Python slice `l[-10:0]`. -/
lemma paginate_page_zero (l : List Question) : paginate_questions 0 l = [] := by
  simp [paginate_questions, pySlice, sliceIndex, QUESTIONS_PER_PAGE]

/-- C2: for every question list and every page number p ≥ 1,
paginate_questions returns the contiguous sub-sequence of at most 10 items
starting at offset (p-1)*10, whose length is min(10, max(0, n - 10*(p-1)));
in particular a page beyond range yields the empty sequence rather than an
error. -/
theorem pagination_window (l : List Question) (p : Int) (hp : 1 ≤ p) :
    paginate_questions p l = (l.drop ((p - 1) * 10).toNat).take 10 ∧
    ((paginate_questions p l).length : Int) =
      min 10 (max 0 ((l.length : Int) - 10 * (p - 1))) := by
  have h0 : (0 : Int) ≤ (p - 1) * 10 :=
    mul_nonneg (by omega) (by norm_num)
  obtain ⟨k, hk⟩ : ∃ k : Nat, (p - 1) * 10 = (k : Int) :=
    ⟨((p - 1) * 10).toNat, (Int.toNat_of_nonneg h0).symm⟩
  have hkt : ((p - 1) * 10).toNat = k := by omega
  have main : paginate_questions p l = (l.drop k).take 10 := by
    unfold paginate_questions pySlice sliceIndex QUESTIONS_PER_PAGE
    rw [if_neg (by omega), if_neg (by omega), hkt]
    have hbt : ((p - 1) * 10 + 10).toNat = k + 10 := by omega
    rw [hbt]
    rcases le_or_lt k l.length with h | h
    · rw [min_eq_left h, List.take_eq_take, List.length_drop]
      omega
    · rw [min_eq_right h.le, List.drop_length,
        List.drop_eq_nil_of_le h.le]
      simp
  have hlen : (paginate_questions p l).length = min 10 (l.length - k) := by
    rw [main, List.length_take, List.length_drop]
  exact ⟨by rw [hkt]; exact main, by rw [hlen]; omega⟩

/-- C2 witness: the window formula evaluated at page 2 of a 15-question
database. -/
theorem pagination_window_witness :
    paginate_questions 2 (mkDb 15) = ((mkDb 15).drop (((2 : Int) - 1) * 10).toNat).take 10 ∧
    ((paginate_questions 2 (mkDb 15)).length : Int) =
      min 10 (max 0 (((mkDb 15).length : Int) - 10 * ((2 : Int) - 1))) :=
  pagination_window (mkDb 15) 2 (by norm_num)

/-- C9: the categories read always yields a (possibly empty) list, never
null, so GET /categories succeeds for every storage state — an empty
category table maps to an empty mapping rather than 404 — even though the
handler's 404 branch (taken exactly on a null read) exists in the code. -/
theorem get_categories_never_404 :
    (∀ cats : List Category,
      get_categories (categoriesRead cats) = .ok (formatCategories (sortCatsById cats))) ∧
    (∀ cats : List Category, categoriesRead cats ≠ none) ∧
    get_categories (categoriesRead ([] : List Category)) = .ok [] ∧
    get_categories none = .error 404 := by
  refine ⟨fun cats => rfl, fun cats h => by simp [categoriesRead] at h, rfl, rfl⟩

/-- C9 witness: the never-null conjunct evaluated on a one-category store. -/
theorem get_categories_never_404_witness :
    categoriesRead [⟨1, "Science"⟩] ≠ none :=
  get_categories_never_404.2.1 [⟨1, "Science"⟩]

/-- C10: page 0 always yields the empty slice (hence GET /questions?page=0
is always 404), while a negative page is not governed by the offset formula:
page -1 on any list of at least 11 questions yields a non-empty window taken
from the end of the list, so a negative page can produce a success
response. -/
theorem paginate_nonpositive_page :
    (∀ l : List Question, paginate_questions 0 l = []) ∧
    (∀ (db : List Question) (cats : Option (List Category)),
      get_questions db cats 0 = .error 404) ∧
    (∀ l : List Question, 11 ≤ l.length → paginate_questions (-1) l ≠ []) ∧
    get_questions (mkDb 11) (categoriesRead [⟨1, "Science"⟩]) (-1) =
      .ok ⟨[⟨1, "q", "a", 1, 1⟩], 11, [(1, "Science")]⟩ := by
  refine ⟨paginate_page_zero, ?_, ?_, ?_⟩
  · intro db cats
    cases cats with
    | none => rfl
    | some cs => simp [get_questions, paginate_page_zero]
  · intro l hl
    have h20 : ((-1 : Int) - 1) * QUESTIONS_PER_PAGE = -20 := by
      norm_num [QUESTIONS_PER_PAGE]
    have h10 : ((-1 : Int) - 1) * QUESTIONS_PER_PAGE + QUESTIONS_PER_PAGE = -10 := by
      norm_num [QUESTIONS_PER_PAGE]
    rw [← List.length_pos]
    unfold paginate_questions pySlice
    rw [h10, h20]
    unfold sliceIndex
    rw [if_pos (by norm_num), if_pos (by norm_num)]
    rw [List.length_take, List.length_drop]
    omega
  · rfl

/-- C10 witness: the negative-page conjunct evaluated on an 11-question
database. -/
theorem paginate_nonpositive_page_witness :
    11 ≤ (mkDb 11).length ∧ paginate_questions (-1) (mkDb 11) ≠ [] :=
  ⟨by decide, paginate_nonpositive_page.2.2.1 (mkDb 11) (by decide)⟩

/-- Paginating the empty list yields the empty list for every page. -/
lemma paginate_nil (page : Int) : paginate_questions page [] = [] := by
  simp [paginate_questions, pySlice]

/-- C3: POST /questions aborts 400 if and only if one of the four body
fields is null/missing (a present-but-falsy field is accepted); on a 400 the
database is unchanged, and on a successful insert the question count grows
by exactly one. -/
theorem post_question_validation (db : List Question) (b : PostBody)
    (insertOk : Bool) :
    ((post_question db b insertOk).2 = .error 400 ↔ missingField b = true) ∧
    (missingField b = true → (post_question db b insertOk).1 = db) ∧
    (missingField b = false → insertOk = true →
      (post_question db b insertOk).1.length = db.length + 1) := by
  obtain ⟨q, a, d, c⟩ := b
  cases q <;> cases a <;> cases d <;> cases c <;> cases insertOk <;>
    simp [post_question, missingField]

/-- C3 witness: a body whose four fields are present but falsy (empty
strings and zeroes) is accepted and grows the empty database to one row. -/
theorem post_question_validation_witness :
    (post_question [] ⟨some "", some "", some 0, some 0⟩ true).1.length =
      ([] : List Question).length + 1 :=
  (post_question_validation [] ⟨some "", some "", some 0, some 0⟩ true).2.2 rfl rfl

/-- A bare `%` pattern matches every string. -/
lemma likeMatch_percent_nil (s : List Char) : likeMatch ['%'] s = true := by
  induction s with
  | nil => rfl
  | cons c s ih =>
    show (likeMatch [] (c :: s) || anySuffix (likeMatch []) s) = true
    rw [show anySuffix (likeMatch []) s = likeMatch ['%'] s from rfl, ih]
    simp

/-- Pointwise-equal continuations succeed on the same suffixes. -/
lemma anySuffix_congr (f g : List Char → Bool) (h : ∀ s, f s = g s)
    (s : List Char) : anySuffix f s = anySuffix g s := by
  induction s with
  | nil => exact h []
  | cons c s ih =>
    show (f (c :: s) || anySuffix f s) = (g (c :: s) || anySuffix g s)
    rw [h (c :: s), ih]

/-- A wildcard-free pattern followed by `%` matches exactly the strings it
heads literally. -/
lemma likeMatch_append_percent (t : List Char)
    (hw : ∀ ch ∈ t, ch ≠ '%' ∧ ch ≠ '_') (s : List Char) :
    likeMatch (t ++ ['%']) s = isSubAt t s := by
  induction t generalizing s with
  | nil => exact likeMatch_percent_nil s
  | cons p t ih =>
    obtain ⟨hp, hu⟩ := hw p (List.mem_cons_self p t)
    have hw2 : ∀ ch ∈ t, ch ≠ '%' ∧ ch ≠ '_' :=
      fun ch hch => hw ch (List.mem_cons_of_mem _ hch)
    have h1 : (p == '_') = false := by simpa using hu
    cases s with
    | nil =>
      show (if p = '%' then anySuffix (likeMatch (t ++ ['%'])) [] else false) = false
      rw [if_neg hp]
    | cons c s =>
      show (if p = '%' then anySuffix (likeMatch (t ++ ['%'])) (c :: s)
          else (p == '_' || p == c) && likeMatch (t ++ ['%']) s) =
        (p == c && isSubAt t s)
      rw [if_neg hp, h1, Bool.false_or, ih hw2]

/-- Trying the head-occurrence test on every suffix is the contiguous
occurrence test. -/
lemma anySuffix_isSubAt (t hay : List Char) :
    anySuffix (isSubAt t) hay = hasSub t hay := by
  induction hay with
  | nil => cases t <;> rfl
  | cons c s ih =>
    show (isSubAt t (c :: s) || anySuffix (isSubAt t) s) = hasSub t (c :: s)
    rw [ih]
    rfl

/-- For a wildcard-free needle, the pattern `%needle%` matches exactly the
strings containing the needle contiguously. -/
lemma likeMatch_wildcard_free (t : List Char)
    (hw : ∀ ch ∈ t, ch ≠ '%' ∧ ch ≠ '_') (s : List Char) :
    likeMatch ('%' :: (t ++ ['%'])) s = hasSub t s := by
  have h1 : likeMatch ('%' :: (t ++ ['%'])) s =
      anySuffix (likeMatch (t ++ ['%'])) s := rfl
  rw [h1, anySuffix_congr _ (isSubAt t) (likeMatch_append_percent t hw),
    anySuffix_isSubAt]

/-- Lowercasing never creates a LIKE wildcard character. -/
lemma toLower_ne_wild (c : Char) (h1 : c ≠ '%') (h2 : c ≠ '_') :
    Char.toLower c ≠ '%' ∧ Char.toLower c ≠ '_' := by
  unfold Char.toLower
  by_cases h : c.toNat ≥ 65 ∧ c.toNat ≤ 90
  · rw [if_pos h]
    have hv : (c.toNat + 32).isValidChar := Or.inl (by omega)
    have ht : (Char.ofNat (c.toNat + 32)).toNat = c.toNat + 32 := by
      simp [Char.ofNat, hv, Char.ofNatAux]
      rfl
    constructor <;> intro he <;> rw [he] at ht <;> revert ht <;> simp <;> omega
  · rw [if_neg h]
    exact ⟨h1, h2⟩

/-- For a term without wildcard characters, the ilike pattern filter is
exactly case-insensitive substring containment. -/
lemma ilikeFilter_eq_containsCI (hay t : String)
    (hw : ∀ ch ∈ t.toList, ch ≠ '%' ∧ ch ≠ '_') :
    ilikeFilter hay t = containsCI hay t := by
  have hmap : ('%' :: t.toList ++ ['%']).map Char.toLower =
      '%' :: (t.toList.map Char.toLower ++ ['%']) := by
    simp [show Char.toLower '%' = '%' from rfl]
  have hw2 : ∀ ch ∈ t.toList.map Char.toLower, ch ≠ '%' ∧ ch ≠ '_' := by
    intro ch hch
    rw [List.mem_map] at hch
    obtain ⟨c0, hc0, hcl⟩ := hch
    obtain ⟨h1, h2⟩ := hw c0 hc0
    rw [← hcl]
    exact toLower_ne_wild c0 h1 h2
  unfold ilikeFilter containsCI
  rw [hmap, likeMatch_wildcard_free _ hw2]

/-- C4 counterexample: the term "a_c" does not occur as a case-insensitive
substring of the question text "abc", yet the handler returns that
question — the unescaped `_` in the term acts as a SQL wildcard, so the
returned set is not "all and only the substring matches". -/
theorem search_wildcard_counterexample :
    search_question [⟨1, "abc", "x", 1, 1⟩] (some "a_c") 1 =
      .ok ⟨[⟨1, "abc", "x", 1, 1⟩], 1⟩ ∧
    containsCI "abc" "a_c" = false :=
  ⟨rfl, rfl⟩

/-- C4 (amended): POST /questions/search aborts 400 on an absent or empty
term (both alike); otherwise it returns exactly the questions whose text
matches the unescaped SQL pattern '%'+term+'%' case-insensitively — `%` and
`_` inside the term acting as wildcards — paginated, with the unpaginated
match count, and for a term containing no wildcard character these are
exactly the case-insensitive substring matches; zero matches is a success
with an empty list, never a 404. -/
theorem search_question_like_spec (db : List Question) (page : Int) (t : String)
    (ht : t ≠ "") :
    search_question db none page = .error 400 ∧
    search_question db (some "") page = .error 400 ∧
    search_question db (some t) page =
      .ok ⟨(paginate_questions page (db.filter fun q => ilikeFilter q.question t)).map
            Question.format,
          (db.filter fun q => ilikeFilter q.question t).length⟩ ∧
    ((db.filter fun q => ilikeFilter q.question t) = [] →
      search_question db (some t) page = .ok ⟨[], 0⟩) ∧
    ((∀ ch ∈ t.toList, ch ≠ '%' ∧ ch ≠ '_') →
      db.filter (fun q => ilikeFilter q.question t) =
        db.filter (fun q => containsCI q.question t)) := by
  refine ⟨rfl, rfl, by simp [search_question, ht], ?_, ?_⟩
  · intro h
    simp [search_question, ht, h, paginate_nil]
  · intro hw
    exact List.filter_congr (fun r _ => ilikeFilter_eq_containsCI r.question t hw)

/-- C4 witness: term "a" on a one-question database with text "Cat": the
handler returns the question with count 1, and for this wildcard-free term
the pattern filter coincides with substring containment. -/
theorem search_question_like_spec_witness :
    search_question [⟨1, "Cat", "x", 1, 1⟩] (some "a") 1 =
      .ok ⟨[⟨1, "Cat", "x", 1, 1⟩], 1⟩ ∧
    ([⟨1, "Cat", "x", 1, 1⟩] : List Question).filter (fun q => ilikeFilter q.question "a") =
      ([⟨1, "Cat", "x", 1, 1⟩] : List Question).filter (fun q => containsCI q.question "a") :=
  ⟨((search_question_like_spec [⟨1, "Cat", "x", 1, 1⟩] 1 "a" (by decide)).2.2.1).trans rfl,
   (search_question_like_spec [⟨1, "Cat", "x", 1, 1⟩] 1 "a" (by decide)).2.2.2.2 (by decide)⟩

/-- With distinct ids, erasing the first row matching an id equals keeping
every row with a different id. -/
lemma eraseP_eq_filter_of_nodup (db : List Question) (qid : Nat)
    (hnd : (db.map Question.id).Nodup) :
    db.eraseP (fun q => q.id == qid) = db.filter (fun q => !(q.id == qid)) := by
  induction db with
  | nil => rfl
  | cons a t ih =>
    simp only [List.map_cons, List.nodup_cons, List.mem_map] at hnd
    obtain ⟨hh, ht⟩ := hnd
    by_cases hp : a.id = qid
    · have hfilter : t.filter (fun q => !(q.id == qid)) = t := by
        rw [List.filter_eq_self]
        intro r hr
        have hne : r.id ≠ qid := by
          intro he
          exact hh ⟨r, hr, by rw [he, hp]⟩
        simp [hne]
      simp [List.eraseP_cons, List.filter_cons, hp, hfilter]
    · simp [List.eraseP_cons, List.filter_cons, hp, ih ht]

/-- Concrete two-question database used by witnesses. -/
def dbTwo : List Question := [⟨1, "a", "b", 1, 1⟩, ⟨2, "c", "d", 1, 1⟩]

/-- C5: DELETE /questions/{id} on an existing id removes exactly that row
(every other row is kept), echoes the id, and a subsequent primary-key
lookup finds nothing; on a missing id it returns 404 with the database
unchanged. -/
theorem delete_question_spec (db : List Question) (qid : Nat)
    (hnd : (db.map Question.id).Nodup) :
    ((∀ q ∈ db, q.id ≠ qid) → delete_question db qid true = (db, .error 404)) ∧
    (∀ q ∈ db, q.id = qid →
      (delete_question db qid true).2 = .ok qid ∧
      (delete_question db qid true).1 = db.filter (fun r => !(r.id == qid)) ∧
      (delete_question db qid true).1.find? (fun r => r.id == qid) = none ∧
      (delete_question db qid true).1.length + 1 = db.length) := by
  constructor
  · intro hall
    have hf : db.find? (fun q => q.id == qid) = none := by
      rw [List.find?_eq_none]
      intro x hx
      simp [hall x hx]
    simp [delete_question, hf]
  · intro q hq hqid
    obtain ⟨r, hr⟩ : ∃ r, db.find? (fun q => q.id == qid) = some r := by
      cases hfind : db.find? (fun q => q.id == qid) with
      | none =>
        have := List.find?_eq_none.mp hfind q hq
        simp [hqid] at this
      | some r => exact ⟨r, rfl⟩
    have herase := eraseP_eq_filter_of_nodup db qid hnd
    have h1 : (delete_question db qid true).1 = db.eraseP (fun q => q.id == qid) := by
      simp [delete_question, hr]
    refine ⟨by simp [delete_question, hr], ?_, ?_, ?_⟩
    · rw [h1, herase]
    · rw [h1, herase, List.find?_eq_none]
      intro x hx
      rw [List.mem_filter] at hx
      simpa using hx.2
    · rw [h1]
      have hpr : (fun q => q.id == qid) r = true :=
        @List.find?_some _ (fun q => q.id == qid) r db hr
      exact List.length_eraseP_add_one (List.mem_of_find?_eq_some hr) hpr

/-- C5 witness: deleting id 1 from a two-question database. -/
theorem delete_question_spec_witness :
    (delete_question dbTwo 1 true).2 = .ok 1 ∧
    (delete_question dbTwo 1 true).1 = dbTwo.filter (fun r => !(r.id == 1)) ∧
    (delete_question dbTwo 1 true).1.find? (fun r => r.id == 1) = none ∧
    (delete_question dbTwo 1 true).1.length + 1 = dbTwo.length :=
  (delete_question_spec dbTwo 1 (by decide)).2 ⟨1, "a", "b", 1, 1⟩ (by decide) rfl

/-- Inserting into a sorted list grows the length by one. -/
lemma length_insertById (q : Question) (l : List Question) :
    (insertById q l).length = l.length + 1 := by
  induction l with
  | nil => rfl
  | cons a t ih =>
    by_cases h : q.id ≤ a.id
    · simp [insertById, h]
    · simp [insertById, h, ih]

/-- Sorting by id preserves the length. -/
lemma length_sortById (l : List Question) : (sortById l).length = l.length := by
  induction l with
  | nil => rfl
  | cons a t ih =>
    show (insertById a (t.foldr insertById [])).length = t.length + 1
    rw [length_insertById]
    exact congrArg (· + 1) ih

/-- C6: GET /questions?page=N aborts 404 exactly when the paginated slice of
the id-ordered question list is empty (including a page beyond range) or
the categories read yields no result; on success it returns the paginated
formatted questions, the unpaginated total count, and the full category
mapping. -/
theorem get_questions_spec (db : List Question) (cats : Option (List Category))
    (page : Int) :
    (get_questions db cats page = .error 404 ↔
      paginate_questions page (sortById db) = [] ∨ cats = none) ∧
    (∀ cs, cats = some cs → paginate_questions page (sortById db) ≠ [] →
      get_questions db cats page =
        .ok ⟨(paginate_questions page (sortById db)).map Question.format, db.length,
            formatCategories cs⟩) := by
  cases cats with
  | none =>
    refine ⟨by simp [get_questions], ?_⟩
    intro cs hcs
    exact absurd hcs (by simp)
  | some cs =>
    constructor
    · by_cases h : paginate_questions page (sortById db) = []
      · simp [get_questions, h]
      · have hlen : (paginate_questions page (sortById db)).length ≠ 0 := by
          simpa [List.length_eq_zero] using h
        simp [get_questions, h, hlen]
    · intro cs2 hcs hne
      injection hcs with hcs'
      subst hcs'
      have hlen : (paginate_questions page (sortById db)).length ≠ 0 := by
        simpa [List.length_eq_zero] using hne
      simp [get_questions, hlen, length_sortById]

/-- C6 witness: page 1 of a one-question database with one category. -/
theorem get_questions_spec_witness :
    get_questions (mkDb 1) (categoriesRead [⟨1, "Science"⟩]) 1 =
      .ok ⟨(paginate_questions 1 (sortById (mkDb 1))).map Question.format, (mkDb 1).length,
          formatCategories (sortCatsById [⟨1, "Science"⟩])⟩ :=
  (get_questions_spec (mkDb 1) (categoriesRead [⟨1, "Science"⟩]) 1).2
    (sortCatsById [⟨1, "Science"⟩]) rfl (by decide)

/-- C7: GET /categories/{id}/questions aborts 404 if and only if no category
with the given id exists; when it exists the handler succeeds — even with
zero matching questions — returning the paginated matching questions, the
unpaginated match count, and the id as current_category. -/
theorem select_category_spec (cats : List Category) (db : List Question)
    (qid : Nat) (page : Int) :
    (select_categoty cats db qid page = .error 404 ↔ ∀ c ∈ cats, c.id ≠ qid) ∧
    ((∃ c ∈ cats, c.id = qid) →
      select_categoty cats db qid page =
        .ok ⟨(paginate_questions page (db.filter fun q => decide (q.category = (qid : Int)))).map
              Question.format,
            (db.filter fun q => decide (q.category = (qid : Int))).length, qid⟩) := by
  constructor
  · cases hfind : cats.find? (fun c => c.id == qid) with
    | none =>
      simp only [select_categoty, hfind]
      constructor
      · intro _ c hc
        have := List.find?_eq_none.mp hfind c hc
        simpa using this
      · intro _
        trivial
    | some c =>
      simp only [select_categoty, hfind]
      constructor
      · intro h
        exact absurd h (by simp)
      · intro hall
        have h1 : (fun x => x.id == qid) c = true :=
          @List.find?_some _ (fun x => x.id == qid) c cats hfind
        have h2 := List.mem_of_find?_eq_some hfind
        exact absurd (by simpa using h1) (hall c h2)
  · rintro ⟨c, hc, hcid⟩
    cases hfind : cats.find? (fun x => x.id == qid) with
    | none =>
      have := List.find?_eq_none.mp hfind c hc
      simp [hcid] at this
    | some r => simp [select_categoty, hfind]

/-- C7 witness: an existing category with zero matching questions still
succeeds (with an empty page and total 0). -/
theorem select_category_spec_witness :
    select_categoty [⟨1, "Science"⟩] [] 1 1 =
      .ok ⟨(paginate_questions 1 (([] : List Question).filter fun q =>
              decide (q.category = ((1 : Nat) : Int)))).map Question.format,
          (([] : List Question).filter fun q =>
              decide (q.category = ((1 : Nat) : Int))).length, 1⟩ :=
  (select_category_spec [⟨1, "Science"⟩] [] 1 1).2 (by decide)

/-- The post-guard tail yields 404 exactly on an empty pool. -/
lemma chooseFrom_error404_iff (questions : List Question) (pick : Nat → Nat) :
    chooseFrom questions pick = .error 404 ↔ questions = [] := by
  by_cases h : questions.length = 0
  · rw [List.length_eq_zero] at h
    simp [chooseFrom, h]
  · have hne : questions ≠ [] := fun he => h (by simp [he])
    simp only [chooseFrom, if_neg h]
    cases hq : questions[pick questions.length]? with
    | some q => simp [hne]
    | none => simp [hne]

/-- A question returned by the post-guard tail is a member of the pool. -/
lemma chooseFrom_ok_mem (questions : List Question) (pick : Nat → Nat)
    (q : Question) : chooseFrom questions pick = .ok ⟨q⟩ → q ∈ questions := by
  intro h
  by_cases hl : questions.length = 0
  · simp [chooseFrom, hl] at h
  · simp only [chooseFrom, if_neg hl] at h
    cases hq : questions[pick questions.length]? with
    | some r =>
      rw [hq] at h
      simp only [Question.format] at h
      injection h with h1
      injection h1 with h2
      exact h2 ▸ List.getElem?_mem hq
    | none =>
      rw [hq] at h
      exact absurd h (by simp)

/-- With an in-range index function, a non-empty pool yields a success
response holding a member of the pool. -/
lemma chooseFrom_ok_of_ne (questions : List Question) (pick : Nat → Nat)
    (hpick : ∀ n, 0 < n → pick n < n) (hne : questions ≠ []) :
    ∃ q, chooseFrom questions pick = .ok ⟨q⟩ ∧ q ∈ questions := by
  have hl : 0 < questions.length := List.length_pos.mpr hne
  have hping : pick questions.length < questions.length := hpick _ hl
  refine ⟨questions.get ⟨pick questions.length, hping⟩, ?_, List.get_mem _ _ hping⟩
  simp only [chooseFrom, if_neg (Nat.pos_iff_ne_zero.mp hl)]
  rw [List.getElem?_eq_getElem hping]
  rfl

/-- C1: on a well-formed quiz body, the sentinel 0 selects all questions and
any other category id selects the questions of that category; the ids in
previous_questions are removed; the handler yields 404 exactly when this
eligible set is empty, any returned question is a member of the eligible set
(with category equal to the requested one when it is not the sentinel), and
a non-empty eligible set does yield a returned member. -/
theorem quiz_selection_spec (db : List Question) (c : Int) (prev : List Nat)
    (ty : Option String) (pick : Nat → Nat)
    (hpick : ∀ n, 0 < n → pick n < n) :
    (next_question db ⟨some (.list prev), some ⟨some c, ty⟩⟩ false pick = .error 404 ↔
      (if c = 0 then db else db.filter fun q => decide (q.category = c)).filter
        (fun q => decide (q.id ∉ prev)) = []) ∧
    (∀ q, next_question db ⟨some (.list prev), some ⟨some c, ty⟩⟩ false pick = .ok ⟨q⟩ →
      q ∈ (if c = 0 then db else db.filter fun q => decide (q.category = c)).filter
          (fun q => decide (q.id ∉ prev)) ∧
      (c ≠ 0 → q.category = c)) ∧
    ((if c = 0 then db else db.filter fun q => decide (q.category = c)).filter
        (fun q => decide (q.id ∉ prev)) ≠ [] →
      ∃ q, next_question db ⟨some (.list prev), some ⟨some c, ty⟩⟩ false pick = .ok ⟨q⟩ ∧
        q ∈ (if c = 0 then db else db.filter fun q => decide (q.category = c)).filter
          (fun q => decide (q.id ∉ prev))) := by
  have hsel : (if (some c : Option Int) = some 0 then db
      else db.filter fun q => decide (some q.category = some c)) =
      (if c = 0 then db else db.filter fun q => decide (q.category = c)) := by
    simp
  have hred : next_question db ⟨some (.list prev), some ⟨some c, ty⟩⟩ false pick =
      chooseFrom ((if c = 0 then db else db.filter fun q => decide (q.category = c)).filter
        (fun q => decide (q.id ∉ prev))) pick := by
    show chooseFrom ((if (some c : Option Int) = some 0 then db
        else db.filter fun q => decide (some q.category = some c)).filter
        (fun q => decide (q.id ∉ prev))) pick = _
    rw [hsel]
  refine ⟨?_, ?_, ?_⟩
  · rw [hred]
    exact chooseFrom_error404_iff _ pick
  · intro q hq
    rw [hred] at hq
    have hmem := chooseFrom_ok_mem _ pick q hq
    refine ⟨hmem, ?_⟩
    intro hc
    have h1 := (List.mem_filter.mp hmem).1
    rw [if_neg hc] at h1
    have h2 := (List.mem_filter.mp h1).2
    simpa using h2
  · intro hne
    rw [hred]
    exact chooseFrom_ok_of_ne _ pick hpick hne

/-- C1 witness: category 2 with no exclusions on a one-question database of
category 2 returns that question. -/
theorem quiz_selection_spec_witness :
    ∃ q, next_question [⟨1, "Q", "A", 2, 1⟩] ⟨some (.list []), some ⟨some 2, none⟩⟩ false
        (fun _ => 0) = .ok ⟨q⟩ ∧
      q ∈ (if (2 : Int) = 0 then [⟨1, "Q", "A", 2, 1⟩]
          else [⟨1, "Q", "A", 2, 1⟩].filter fun q => decide (q.category = 2)).filter
        (fun q => decide (q.id ∉ ([] : List Nat))) :=
  (quiz_selection_spec [⟨1, "Q", "A", 2, 1⟩] 2 [] none (fun _ => 0)
    (fun _ hn => hn)).2.2 (by decide)

/-- C8 counterexample: a body whose quiz_category is present but has no id
is not mapped to 422 — the code compares None to 0, filters on a null
category (matching no row), and falls through to the post-guard 404. -/
theorem quiz_missing_id_counterexample :
    next_question [⟨1, "Q", "A", 1, 1⟩] ⟨some (.list []), some ⟨none, some "Science"⟩⟩
        false (fun _ => 0) = .error 404 ∧
    (Except.error 404 : Except Nat QuizResponse) ≠ .error 422 := by
  refine ⟨rfl, ?_⟩
  intro h
  injection h with h1
  exact absurd h1 (by norm_num)

/-- C8 (amended): a missing quiz_category, an absent/null or non-list
previous_questions, and a storage error during the filtered query are each
caught and mapped to 422; a missing id inside a present quiz_category is not
an error — it yields an empty null-category filter and flows to the
post-guard path, giving the empty-pool 404; the 404 check runs only after
the guarded block succeeds. -/
theorem quiz_error_collapsing (db : List Question) :
    (∀ (prevOpt : Option PrevVal) (sf : Bool) (pick : Nat → Nat),
      next_question db ⟨prevOpt, none⟩ sf pick = .error 422) ∧
    (∀ (qc : QuizCategory) (sf : Bool) (pick : Nat → Nat),
      next_question db ⟨none, some qc⟩ sf pick = .error 422) ∧
    (∀ (qc : QuizCategory) (sf : Bool) (pick : Nat → Nat),
      next_question db ⟨some .nonList, some qc⟩ sf pick = .error 422) ∧
    (∀ (qc : QuizCategory) (prev : List Nat) (pick : Nat → Nat),
      next_question db ⟨some (.list prev), some qc⟩ true pick = .error 422) ∧
    (∀ (prev : List Nat) (ty : Option String) (pick : Nat → Nat),
      next_question db ⟨some (.list prev), some ⟨none, ty⟩⟩ false pick = .error 404) := by
  refine ⟨fun prevOpt sf pick => rfl, fun qc sf pick => rfl, fun qc sf pick => rfl,
    fun qc prev pick => rfl, ?_⟩
  intro prev ty pick
  have hsel : db.filter (fun q => decide (some q.category = (none : Option Int))) = [] := by
    simp [List.filter_eq_nil_iff]
  show chooseFrom ((if (none : Option Int) = some 0 then db
      else db.filter fun q => decide (some q.category = none)).filter
      (fun q => decide (q.id ∉ prev))) pick = .error 404
  rw [if_neg (by simp), hsel]
  rfl

end Trivia
